import Mathlib

/-!
Verification development for the trade execution and position lifecycle
engine of the `trb` trading bot.

The TypeScript sources are shallowly embedded:

* JavaScript numbers are modelled by `JSNum`: either NaN, one of the two
  infinities, or a finite value represented exactly by a rational.  The
  arithmetic used by `calculatePositionSize` (subtraction, multiplication,
  division, `Math.abs`, `Math.min`, `Math.max`, `Math.floor`,
  `Number(x.toFixed(6))`) is modelled with IEEE special-value propagation;
  finite-value arithmetic is exact rational arithmetic.
* The position lifecycle manager (`PositionManager`) performs no arithmetic
  beyond comparisons and assignment, so its prices are plain rationals.
* Remote exchange calls are modelled by environments holding, per endpoint,
  either a transport failure or a decoded JSON envelope (`retCode`,
  `retMsg`, `result`).  `handleResponse` checks the envelope code exactly
  as the source does.  The trace of `/v5/order/create` requests issued
  during a call is returned alongside the result.
* Timestamps in the rate-limit dispatcher are naturals (milliseconds);
  each queued operation carries its duration and its outcome.
-/

namespace Trb

/-- JavaScript double values as used by the sizing arithmetic: NaN, the two
infinities, or an exact finite value.  Finite doubles are modelled by
rationals. -/
inductive JSNum where
  | nan
  | posInf
  | negInf
  | fin (q : ℚ)
deriving DecidableEq

namespace JSNum

/-- JS subtraction `a - b` with IEEE special-value propagation. -/
def jsSub : JSNum → JSNum → JSNum
  | nan, _ => nan
  | _, nan => nan
  | posInf, posInf => nan
  | posInf, _ => posInf
  | negInf, negInf => nan
  | negInf, _ => negInf
  | fin _, posInf => negInf
  | fin _, negInf => posInf
  | fin a, fin b => fin (a - b)

/-- JS multiplication `a * b`: infinity times zero is NaN, signs propagate. -/
def jsMul : JSNum → JSNum → JSNum
  | nan, _ => nan
  | _, nan => nan
  | posInf, posInf => posInf
  | posInf, negInf => negInf
  | negInf, posInf => negInf
  | negInf, negInf => posInf
  | posInf, fin b => if 0 < b then posInf else if b < 0 then negInf else nan
  | fin a, posInf => if 0 < a then posInf else if a < 0 then negInf else nan
  | negInf, fin b => if 0 < b then negInf else if b < 0 then posInf else nan
  | fin a, negInf => if 0 < a then negInf else if a < 0 then posInf else nan
  | fin a, fin b => fin (a * b)

/-- JS division `a / b`: a nonzero finite value divided by zero is a signed
infinity, `0 / 0` is NaN, infinity over infinity is NaN.  The literal zero
divisor of the source is `+0`. -/
def jsDiv : JSNum → JSNum → JSNum
  | nan, _ => nan
  | _, nan => nan
  | posInf, posInf => nan
  | posInf, negInf => nan
  | negInf, posInf => nan
  | negInf, negInf => nan
  | posInf, fin b => if b < 0 then negInf else posInf
  | negInf, fin b => if b < 0 then posInf else negInf
  | fin _, posInf => fin 0
  | fin _, negInf => fin 0
  | fin a, fin b =>
    if b = 0 then (if 0 < a then posInf else if a < 0 then negInf else nan)
    else fin (a / b)

/-- `Math.abs`. -/
def jsAbs : JSNum → JSNum
  | nan => nan
  | posInf => posInf
  | negInf => posInf
  | fin a => if a < 0 then fin (-a) else fin a

/-- `Math.min` of two arguments: NaN-contaminating. -/
def jsMin : JSNum → JSNum → JSNum
  | nan, _ => nan
  | _, nan => nan
  | negInf, _ => negInf
  | _, negInf => negInf
  | posInf, y => y
  | x, posInf => x
  | fin a, fin b => if b < a then fin b else fin a

/-- `Math.max` of two arguments: NaN-contaminating. -/
def jsMax : JSNum → JSNum → JSNum
  | nan, _ => nan
  | _, nan => nan
  | posInf, _ => posInf
  | _, posInf => posInf
  | negInf, y => y
  | x, negInf => x
  | fin a, fin b => if a < b then fin b else fin a

/-- `Math.floor`. -/
def jsFloor : JSNum → JSNum
  | nan => nan
  | posInf => posInf
  | negInf => negInf
  | fin a => fin (⌊a⌋ : ℚ)

/-- Rounding of an exact value to six decimal places, as performed by
`x.toFixed(6)` (ECMAScript picks the larger candidate on ties, i.e. rounds
half toward positive infinity). -/
def roundTo6 (q : ℚ) : ℚ := (⌊q * 1000000 + 1 / 2⌋ : ℚ) / 1000000

/-- `Number(x.toFixed(6))`: NaN and infinities round-trip through the
strings `NaN` / `Infinity` / `-Infinity`. -/
def jsToFixed6 : JSNum → JSNum
  | nan => nan
  | posInf => posInf
  | negInf => negInf
  | fin a => fin (roundTo6 a)

end JSNum

open JSNum

/-- Trade direction, `Direction` in `src/types/trade.ts`. -/
inductive Direction where
  | LONG
  | SHORT
deriving DecidableEq

/-- Order side on the exchange. -/
inductive Side where
  | Buy
  | Sell
deriving DecidableEq

/-- One take-profit ladder entry of a parsed signal. -/
structure TakeProfitLevel where
  level : Int
  price : ℚ
deriving DecidableEq

/-- `ParsedSignal`: the validated trading intent consumed by the engine.
`entryZone = none` models the `'market'` sentinel, `some e` a numeric entry
price. -/
structure ParsedSignal where
  pair : String
  direction : Direction
  entryZone : Option ℚ
  stopLoss : ℚ
  takeProfits : List TakeProfitLevel
  confidence : ℚ
deriving DecidableEq

/-- The entry price actually used by `calculatePositionSize`:
`signal.entryZone === 'market' ? currentPrice : signal.entryZone`. -/
def entryPriceOf (signal : ParsedSignal) (currentPrice : ℚ) : ℚ :=
  match signal.entryZone with
  | none => currentPrice
  | some e => e

/-- Result record of `calculatePositionSize`. -/
structure SizedPosition where
  size : JSNum
  leverage : JSNum
deriving DecidableEq

/-- `BybitClient.calculatePositionSize`
(`src/services/bybit-client.ts:279-322`), computed in JS-number
arithmetic.  The inputs of the engine are finite numbers, injected as
`JSNum.fin`. -/
def calculatePositionSize (signal : ParsedSignal) (portfolioValue : ℚ)
    (portfolioPercentage : ℚ) (currentPrice : ℚ) : SizedPosition :=
  let riskAmount := jsDiv (jsMul (fin portfolioValue) (fin portfolioPercentage)) (fin 100)
  let entryPrice := entryPriceOf signal currentPrice
  let stopLossDistance := jsAbs (jsSub (fin entryPrice) (fin signal.stopLoss))
  let riskPerUnit := stopLossDistance
  let positionSizeInUnits := jsDiv riskAmount riskPerUnit
  let positionValueUSDT := jsMul positionSizeInUnits (fin entryPrice)
  let requiredMargin := jsDiv positionValueUSDT (fin 20)
  let availableForMargin := jsMul (fin portfolioValue) (fin (8 / 10))
  let actualMargin := jsMin requiredMargin availableForMargin
  let leverage := jsMin (fin 20) (jsMax (fin 1) (jsDiv positionValueUSDT actualMargin))
  let finalPositionSize := jsDiv (jsMul actualMargin leverage) (fin entryPrice)
  { size := jsToFixed6 finalPositionSize, leverage := jsFloor leverage }

/-- The exact (pre-rounding) final position size along the path taken for
inputs whose stop-loss distance is positive and whose leverage clamps to
the cap: size and margin chain of `calculatePositionSize` in plain
rational arithmetic.  Used to state when rounding to six decimals can
still return a zero size. -/
def unroundedSize (signal : ParsedSignal) (portfolioValue : ℚ)
    (portfolioPercentage : ℚ) (currentPrice : ℚ) : ℚ :=
  let entryPrice := entryPriceOf signal currentPrice
  let riskPerUnit := entryPrice - signal.stopLoss
  let positionValueUSDT := portfolioValue * portfolioPercentage / 100 / riskPerUnit * entryPrice
  let requiredMargin := positionValueUSDT / 20
  let availableForMargin := portfolioValue * (8 / 10)
  let actualMargin := if availableForMargin < requiredMargin then availableForMargin else requiredMargin
  actualMargin * 20 / entryPrice

/-! ## Exchange calls and `executeTrade` -/

/-- Failures surfaced by the Bybit client.  `apiError` is a non-idempotent
nonzero envelope code; `transport` is a thrown connectivity/HTTP/parse
failure (the tag only distinguishes witnesses); `badPrice` is the invalid
market-price guard of `getMarketPrice`; `fillFailed` is the
`position not found - possible fill failure` error of `executeTrade`;
`slFailed e` is the `Failed to set stop loss after 3 attempts` error,
carrying the last attempt's failure `e`. -/
inductive BErr where
  | apiError (code : Int)
  | transport (tag : ℕ)
  | badPrice
  | fillFailed
  | slFailed (last : BErr)
deriving DecidableEq

/-- A decoded Bybit JSON envelope, `{ retCode, retMsg, result }`. -/
structure Envelope (α : Type) where
  retCode : Int
  retMsg : String
  result : α

/-- `BybitClient.handleResponse` (`src/services/bybit-client.ts:177-198`)
restricted to a decoded envelope: a nonzero code other than the two
idempotent "already set" codes 110043 and 34040 is a failure, everything
else succeeds with the `result` payload.  (In the source the thrown
code-error is re-wrapped by the surrounding JSON-parse catch; only the
message changes, success and failure are unaffected, so the model keeps
the code in the error.) -/
def handleResponse {α : Type} (data : Envelope α) : Except BErr α :=
  if data.retCode ≠ 0 ∧ data.retCode ≠ 110043 ∧ data.retCode ≠ 34040 then
    Except.error (BErr.apiError data.retCode)
  else
    Except.ok data.result

/-- Removes the first `/` of a symbol, as `symbol.replace('/', '')` does
(JS `String.replace` with a string pattern replaces the first occurrence
only). -/
def removeFirstSlash : List Char → List Char
  | [] => []
  | c :: cs => if c = '/' then cs else c :: removeFirstSlash cs

/-- `BybitClient.convertSymbolToBybit`: `BTC/USDT ↦ BTCUSDT`. -/
def convertSymbolToBybit (symbol : String) : String :=
  String.mk (removeFirstSlash symbol.data)

/-- One entry of the `/v5/position/list` payload; response fields not read
by the control flow under verification are omitted. -/
structure PosEntry where
  symbol : String
  size : ℚ
deriving DecidableEq

/-- A remote call outcome: a thrown transport failure or a decoded
envelope. -/
abbrev CallResp (α : Type) := Except BErr (Envelope α)

/-- The responses the exchange gives to the calls of one `executeTrade`
invocation (deterministic oracles, one per call site, in call order). -/
structure Env where
  priceResp : CallResp (List ℚ)
  levResp : CallResp Unit
  orderResp : CallResp String
  posResp : CallResp (List PosEntry)
  slResps : ℕ → CallResp Unit
  tpResp : CallResp String
  rbPosResp : CallResp (List PosEntry)
  rbOrderResp : CallResp String

/-- `BybitClient.getMarketPrice` on a response: empty ticker list or a
non-positive price is an error, otherwise the first ticker's price. -/
def getMarketPrice (resp : CallResp (List ℚ)) (symbol : String) : Except BErr ℚ := do
  let _ := convertSymbolToBybit symbol
  let e ← resp
  let l ← handleResponse e
  match l.head? with
  | none => Except.error BErr.badPrice
  | some price => if price ≤ 0 then Except.error BErr.badPrice else pure price

/-- `BybitClient.getPosition` on a response: the first list entry matching
the converted symbol with strictly positive size, or `none`. -/
def getPosition (resp : CallResp (List PosEntry)) (symbol : String) :
    Except BErr (Option PosEntry) := do
  let bybitSymbol := convertSymbolToBybit symbol
  let e ← resp
  let l ← handleResponse e
  pure (l.find? (fun p => p.symbol == bybitSymbol && decide (0 < p.size)))

/-- `BybitClient.setLeverage` on a response: success is decided solely by
`handleResponse`. -/
def setLeverage (resp : CallResp Unit) (symbol : String) (leverage : JSNum) :
    Except BErr Unit := do
  let _ := (symbol, leverage)
  let e ← resp
  let _ ← handleResponse e
  pure ()

/-- `BybitClient.setStopLoss` on a response (trading-stop endpoint). -/
def setStopLoss (resp : CallResp Unit) (symbol : String) (side : Direction)
    (stopLossPrice : ℚ) : Except BErr Unit := do
  let _ := (symbol, side, stopLossPrice)
  let e ← resp
  let _ ← handleResponse e
  pure ()

/-- A `/v5/order/create` request as issued on the wire. -/
structure OrderReq where
  symbol : String
  side : Side
  isLimit : Bool
  qty : JSNum
  price : Option ℚ
  reduceOnly : Bool
deriving DecidableEq

/-- Argument record of `placeMarketOrder`. -/
structure TradeOrder where
  symbol : String
  side : Side
  qty : JSNum

/-- The `/v5/order/create` call on a response: the returned order id, or
the failure. -/
def createOrderCall (resp : CallResp String) : Except BErr String := do
  let e ← resp
  let r ← handleResponse e
  pure r

/-- `BybitClient.placeMarketOrder` (`src/services/bybit-client.ts:348-393`):
the quantity is floored to a whole unit before submission; the request is
issued regardless of whether the exchange then accepts it.  Returns the
call result together with the issued request. -/
def placeMarketOrder (resp : CallResp String) (order : TradeOrder) :
    Except BErr String × List OrderReq :=
  let roundedQty := jsFloor order.qty
  let req : OrderReq :=
    { symbol := order.symbol, side := order.side, isLimit := false,
      qty := roundedQty, price := none, reduceOnly := false }
  (createOrderCall resp, [req])

/-- `BybitClient.setTakeProfits` (`src/services/bybit-client.ts:465-518`):
only the last (highest) ladder entry is used, for the whole floored
position size, as a reduce-only limit order; an empty ladder logs a
warning and returns successfully without any request. -/
def setTakeProfits (resp : CallResp String) (symbol : String) (side : Direction)
    (takeProfits : List TakeProfitLevel) (positionSize : JSNum) :
    Except BErr Unit × List OrderReq :=
  match takeProfits.getLast? with
  | none => (Except.ok (), [])
  | some highestTP =>
    let orderSide := if side = Direction.LONG then Side.Sell else Side.Buy
    let roundedQty := jsFloor positionSize
    let req : OrderReq :=
      { symbol := symbol, side := orderSide, isLimit := true,
        qty := roundedQty, price := some highestTP.price, reduceOnly := true }
    ((do
      let e ← resp
      let _ ← handleResponse e
      pure ()), [req])

/-- `BybitClient.emergencyClosePosition`
(`src/services/bybit-client.ts:663-676`): re-query the live position and,
when present with nonzero size, flatten it with an opposite-side market
order. -/
def emergencyClosePosition (env : Env) (symbol : String) (direction : Direction) :
    Except BErr Unit × List OrderReq :=
  match getPosition env.rbPosResp symbol with
  | Except.error e => (Except.error e, [])
  | Except.ok none => (Except.ok (), [])
  | Except.ok (some position) =>
    if position.size = 0 then (Except.ok (), [])
    else
      let orderSide := if direction = Direction.LONG then Side.Sell else Side.Buy
      match placeMarketOrder env.rbOrderResp
          { symbol := symbol, side := orderSide, qty := JSNum.fin position.size } with
      | (Except.ok _, reqs) => (Except.ok (), reqs)
      | (Except.error e, reqs) => (Except.error e, reqs)

/-- The entry-price resolution step of `executeTrade`: fetch the market
price for a `'market'` entry, otherwise use the signal's entry price. -/
def resolveEntryPrice (env : Env) (signal : ParsedSignal) : Except BErr ℚ :=
  match signal.entryZone with
  | none => getMarketPrice env.priceResp (convertSymbolToBybit signal.pair)
  | some e => Except.ok e

/-- The stop-loss retry loop of `executeTrade`: up to 3 attempts; failure
of the third attempt throws the `slFailed` error wrapping the last
attempt's failure. -/
def setStopLossWithRetries (env : Env) (symbol : String) (signal : ParsedSignal) :
    Except BErr Unit :=
  match setStopLoss (env.slResps 1) symbol signal.direction signal.stopLoss with
  | Except.ok _ => Except.ok ()
  | Except.error _ =>
    match setStopLoss (env.slResps 2) symbol signal.direction signal.stopLoss with
    | Except.ok _ => Except.ok ()
    | Except.error _ =>
      match setStopLoss (env.slResps 3) symbol signal.direction signal.stopLoss with
      | Except.ok _ => Except.ok ()
      | Except.error e => Except.error (BErr.slFailed e)

/-- Successful result record of `executeTrade`. -/
structure TradeResult where
  orderId : String
  leverage : JSNum
  positionSize : ℚ
  actualEntryPrice : ℚ
deriving DecidableEq

/-- The `try` block of `executeTrade`
(`src/services/bybit-client.ts:534-624`).  Returns the outcome, whether
`orderResponse` was assigned (the market order call succeeded, which is
what gates the rollback), and the order requests issued so far. -/
def executeTradeInner (env : Env) (signal : ParsedSignal) (portfolioValue : ℚ)
    (portfolioPercentage : ℚ) : Except BErr TradeResult × Bool × List OrderReq :=
  let bybitSymbol := convertSymbolToBybit signal.pair
  match resolveEntryPrice env signal with
  | Except.error e => (Except.error e, false, [])
  | Except.ok currentPrice =>
    let sized := calculatePositionSize signal portfolioValue portfolioPercentage currentPrice
    match setLeverage env.levResp bybitSymbol sized.leverage with
    | Except.error e => (Except.error e, false, [])
    | Except.ok _ =>
      let order : TradeOrder :=
        { symbol := bybitSymbol,
          side := if signal.direction = Direction.LONG then Side.Buy else Side.Sell,
          qty := sized.size }
      match placeMarketOrder env.orderResp order with
      | (Except.error e, reqs) => (Except.error e, false, reqs)
      | (Except.ok orderId, reqs) =>
        match getPosition env.posResp bybitSymbol with
        | Except.error e => (Except.error e, true, reqs)
        | Except.ok none => (Except.error BErr.fillFailed, true, reqs)
        | Except.ok (some position) =>
          if position.size = 0 then (Except.error BErr.fillFailed, true, reqs)
          else
            match setStopLossWithRetries env bybitSymbol signal with
            | Except.error e => (Except.error e, true, reqs)
            | Except.ok _ =>
              match setTakeProfits env.tpResp bybitSymbol signal.direction
                  signal.takeProfits sized.size with
              | (Except.error e, tpReqs) => (Except.error e, true, reqs ++ tpReqs)
              | (Except.ok _, tpReqs) =>
                (Except.ok
                  { orderId := orderId, leverage := sized.leverage,
                    positionSize := position.size, actualEntryPrice := currentPrice },
                  true, reqs ++ tpReqs)

/-- `BybitClient.executeTrade` (`src/services/bybit-client.ts:523-658`):
on any failure after the market order succeeded, run exactly one
`emergencyClosePosition`; a rollback failure is logged but swallowed, and
the original error is re-thrown either way. -/
def executeTrade (env : Env) (signal : ParsedSignal) (portfolioValue : ℚ)
    (portfolioPercentage : ℚ) : Except BErr TradeResult × List OrderReq :=
  match executeTradeInner env signal portfolioValue portfolioPercentage with
  | (Except.ok v, _, reqs) => (Except.ok v, reqs)
  | (Except.error e, orderPlaced, reqs) =>
    if orderPlaced then
      let rollback := emergencyClosePosition env (convertSymbolToBybit signal.pair) signal.direction
      (Except.error e, reqs ++ rollback.2)
    else
      (Except.error e, reqs)

/-! ## The rate-limit dispatcher

`withRateLimit` wraps an operation so that the result (or the thrown
failure) of the operation is delivered to the enqueuing caller's promise;
the wrapper returned to the queue re-raises the failure, which the drain
loop of `processRequestQueue` catches and ignores.  The model gives each
queued operation its outcome and its running time in milliseconds; the
drain loop is the sequential process the single-threaded runtime runs. -/

/-- `MIN_REQUEST_INTERVAL` (`src/services/bybit-client.ts:24`),
milliseconds. -/
def MIN_REQUEST_INTERVAL : ℕ := 100

/-- A queued operation: its outcome (delivered to its caller by the
`withRateLimit` wrapper) and the time its dispatch takes. -/
structure QueuedOp (ε α : Type) where
  result : Except ε α
  dur : ℕ

/-- The drain loop body of `processRequestQueue`
(`src/services/bybit-client.ts:82-101`): wait until `minInterval` has
elapsed since the last dispatch, dispatch the head, record the dispatch
time, continue.  Returns the `(dispatch start time, delivered result)`
pairs in dispatch order, and the final `lastRequestTime`. -/
def drainQueue {ε α : Type} (minInterval : ℕ) :
    ℕ → ℕ → List (QueuedOp ε α) → List (ℕ × Except ε α) × ℕ
  | _, lastRequestTime, [] => ([], lastRequestTime)
  | now, lastRequestTime, op :: rest =>
    let start := if now < lastRequestTime + minInterval then lastRequestTime + minInterval else now
    let tail := drainQueue minInterval (start + op.dur) start rest
    ((start, op.result) :: tail.1, tail.2)

/-- Dispatcher state: the FIFO queue, the single-drain flag and the last
dispatch time. -/
structure DispatcherState (ε α : Type) where
  requestQueue : List (QueuedOp ε α)
  isProcessingQueue : Bool
  lastRequestTime : ℕ

/-- `BybitClient.processRequestQueue`
(`src/services/bybit-client.ts:75-104`): a no-op while a drain is already
active or the queue is empty; otherwise drains the whole queue and clears
the flag. -/
def processRequestQueue {ε α : Type} (now : ℕ) (st : DispatcherState ε α) :
    DispatcherState ε α × List (ℕ × Except ε α) :=
  if st.isProcessingQueue || st.requestQueue.isEmpty then (st, [])
  else
    let drained := drainQueue MIN_REQUEST_INTERVAL now st.lastRequestTime st.requestQueue
    ({ requestQueue := [], isProcessingQueue := false, lastRequestTime := drained.2 },
      drained.1)

/-! ## The position lifecycle manager

`PositionManager` performs no arithmetic beyond comparisons and
assignment, so its prices are exact rationals.  Wall-clock timestamps
(`createdAt` / `updatedAt`) are omitted: no claim under verification
concerns age-based cleanup.  The success of each `setStopLoss` exchange
call made by `adjustStopLoss` is supplied by an oracle keyed on the
take-profit level (a failed call is caught and leaves the position
unchanged). -/

/-- `TradeStatus` of `src/types/trade.ts`. -/
inductive TradeStatus where
  | PENDING
  | ACTIVE
  | COMPLETED
  | CANCELLED
  | ERROR
deriving DecidableEq

/-- A take-profit ladder entry with its `filled` flag. -/
structure TakeProfit where
  level : Int
  price : ℚ
  filled : Bool
deriving DecidableEq

/-- The engine-owned `Position` record. -/
structure Position where
  id : String
  symbol : String
  side : Direction
  size : ℚ
  entryPrice : ℚ
  currentPrice : ℚ
  stopLoss : ℚ
  takeProfits : List TakeProfit
  leverage : ℚ
  pnl : ℚ
  status : TradeStatus
deriving DecidableEq

/-- `PositionManager.createPosition` (`part_004:28-66`). -/
def createPosition (signal : ParsedSignal) (id : String) (leverage : ℚ)
    (positionSize : ℚ) (actualEntryPrice : ℚ) : Position :=
  { id := id, symbol := signal.pair, side := signal.direction, size := positionSize,
    entryPrice := actualEntryPrice, currentPrice := actualEntryPrice,
    stopLoss := signal.stopLoss,
    takeProfits := signal.takeProfits.map
      (fun tp => { level := tp.level, price := tp.price, filled := false }),
    leverage := leverage, pnl := 0, status := TradeStatus.ACTIVE }

/-- `PositionManager.checkPriceHitLevel` (`part_004:154-167`): a level is
hit when the previous price was strictly on the unfavorable side and the
new price is at or beyond it. -/
def checkPriceHitLevel (side : Direction) (oldPrice newPrice targetPrice : ℚ) : Bool :=
  if side = Direction.LONG then
    decide (oldPrice < targetPrice) && decide (targetPrice ≤ newPrice)
  else
    decide (targetPrice < oldPrice) && decide (newPrice ≤ targetPrice)

/-- The `switch (tpLevel)` of `PositionManager.adjustStopLoss`
(`part_004:178-193`): the stop-loss value a hit at `tpLevel` should trail
to. -/
def computeNewStopLoss (position : Position) (tpLevel : Int) : ℚ :=
  if tpLevel = 1 then position.entryPrice
  else if tpLevel = 2 then
    match position.takeProfits.find? (fun tp => tp.level == 1) with
    | some tp1 => tp1.price
    | none => position.entryPrice
  else
    match position.takeProfits.find? (fun tp => tp.level == tpLevel - 1) with
    | some prevTP => prevTP.price
    | none => position.stopLoss

/-- `PositionManager.adjustStopLoss` (`part_004:172-231`): the stored
stop-loss moves only when the computed one is strictly more favorable
(higher for LONG, lower for SHORT) and the exchange call succeeds (a
thrown call is caught before the local update). -/
def adjustStopLoss (setOk : Bool) (position : Position) (tpLevel : Int) : Position :=
  let newStopLoss := computeNewStopLoss position tpLevel
  let shouldUpdate :=
    if position.side = Direction.LONG then position.stopLoss < newStopLoss
    else newStopLoss < position.stopLoss
  if shouldUpdate ∧ setOk then { position with stopLoss := newStopLoss } else position

/-- Marks the `i`-th ladder entry filled (the in-place `tp.filled = true`
of the iteration). -/
def markFilled (position : Position) (i : ℕ) : Position :=
  match position.takeProfits.get? i with
  | none => position
  | some tp =>
    { position with takeProfits := position.takeProfits.set i { tp with filled := true } }

/-- The `for (const tp of position.takeProfits)` loop of
`PositionManager.checkTakeProfitHits` (`part_004:117-149`), iterating by
index over the (length-invariant) ladder: skip filled levels; on a hit
mark the level filled and run `adjustStopLoss`. -/
def checkTakeProfitHitsAux (setOk : Int → Bool) (oldPrice newPrice : ℚ) :
    ℕ → ℕ → Position → Position
  | 0, _, position => position
  | fuel + 1, i, position =>
    match position.takeProfits.get? i with
    | none => position
    | some tp =>
      if tp.filled then
        checkTakeProfitHitsAux setOk oldPrice newPrice fuel (i + 1) position
      else if checkPriceHitLevel position.side oldPrice newPrice tp.price then
        let position1 := markFilled position i
        let position2 := adjustStopLoss (setOk tp.level) position1 tp.level
        checkTakeProfitHitsAux setOk oldPrice newPrice fuel (i + 1) position2
      else
        checkTakeProfitHitsAux setOk oldPrice newPrice fuel (i + 1) position

/-- `PositionManager.checkTakeProfitHits`. -/
def checkTakeProfitHits (setOk : Int → Bool) (position : Position)
    (oldPrice newPrice : ℚ) : Position :=
  checkTakeProfitHitsAux setOk oldPrice newPrice position.takeProfits.length 0 position

/-- What one poll observes for a position: a thrown fetch (caught, the
record is returned unchanged), an absent live position, or live mark
price and unrealized PnL. -/
inductive PollFetch where
  | failed
  | absent
  | live (markPrice : ℚ) (unrealisedPnl : ℚ)

/-- `PositionManager.updatePosition` (`part_004:71-112`): an absent live
position marks the record COMPLETED; otherwise price and PnL are updated
and the trailing state machine runs over the price move. -/
def updatePosition (fetch : PollFetch) (setOk : Int → Bool) (position : Position) :
    Position :=
  match fetch with
  | PollFetch.failed => position
  | PollFetch.absent => { position with status := TradeStatus.COMPLETED }
  | PollFetch.live markPrice unrealisedPnl =>
    let oldPrice := position.currentPrice
    let position1 := { position with currentPrice := markPrice, pnl := unrealisedPnl }
    checkTakeProfitHits setOk position1 oldPrice position1.currentPrice

/-- A sequence of monitoring polls applied to one position. -/
def runPolls (events : List (PollFetch × (Int → Bool))) (position : Position) : Position :=
  events.foldl (fun pos ev => updatePosition ev.1 ev.2 pos) position

/-- Actions a manual close issues against the exchange. -/
inductive MgrAction where
  | cancelStopLossOrders (symbol : String)
  | marketOrder (symbol : String) (side : Side) (qty : JSNum)
deriving DecidableEq

/-- `PositionManager.closePosition` (`part_004:325-362`) over the registry
as an association list keyed by position id.  `cancelStopLoss` swallows
its own failures in the source and is recorded as a single action;
`orderOk` tells whether the flattening `placeMarketOrder` call succeeds —
when it throws, the catch returns `false` and the record keeps its ACTIVE
status.  The request quantity is floored by `placeMarketOrder`. -/
def closePosition (registry : List (String × Position)) (positionId : String)
    (orderOk : Bool) : Bool × List (String × Position) × List MgrAction :=
  match registry.lookup positionId with
  | none => (false, registry, [])
  | some position =>
    if position.status ≠ TradeStatus.ACTIVE then (false, registry, [])
    else
      let orderSide := if position.side = Direction.LONG then Side.Sell else Side.Buy
      let actions := [MgrAction.cancelStopLossOrders position.symbol,
        MgrAction.marketOrder position.symbol orderSide (jsFloor (JSNum.fin position.size))]
      if orderOk then
        (true,
          registry.map (fun kv =>
            if kv.1 = positionId then (kv.1, { position with status := TradeStatus.COMPLETED })
            else kv),
          actions)
      else
        (false, registry, actions)

/-! ## Concrete fixtures used by witnesses and counterexamples -/

/-- An exchange oracle that accepts every `setStopLoss` call. -/
def allOk : Int → Bool := fun _ => true

/-- The worked example of the specification: LONG, entry 100, stop-loss
98, take-profit ladder [(1,102),(2,104),(3,106)]. -/
def exampleSignal : ParsedSignal :=
  { pair := "BTC/USDT", direction := Direction.LONG, entryZone := some 100,
    stopLoss := 98,
    takeProfits := [⟨1, 102⟩, ⟨2, 104⟩, ⟨3, 106⟩], confidence := 90 }

/-- The tracked position of the worked example. -/
def examplePosition : Position := createPosition exampleSignal "BTC/USDT_1" 20 5 100

/-- Polls observing mark prices 102 then 103. -/
def pollsA : List (PollFetch × (Int → Bool)) :=
  [(PollFetch.live 102 0, allOk), (PollFetch.live 103 0, allOk)]

/-- Polls observing mark prices 104 then 105. -/
def pollsB : List (PollFetch × (Int → Bool)) :=
  [(PollFetch.live 104 0, allOk), (PollFetch.live 105 0, allOk)]

/-- A SHORT position fixture. -/
def examplePositionShort : Position :=
  { id := "ETH/USDT_1", symbol := "ETH/USDT", side := Direction.SHORT, size := 5,
    entryPrice := 100, currentPrice := 100, stopLoss := 104,
    takeProfits := [⟨1, 96, false⟩, ⟨2, 92, false⟩], leverage := 10, pnl := 0,
    status := TradeStatus.ACTIVE }

/-- An ACTIVE tracked position for the manual-close fixtures. -/
def positionC9 : Position :=
  { id := "p1", symbol := "ID/USDT", side := Direction.LONG, size := 5,
    entryPrice := 10, currentPrice := 10, stopLoss := 9,
    takeProfits := [⟨1, 11, false⟩], leverage := 20, pnl := 0,
    status := TradeStatus.ACTIVE }

/-- A one-position registry. -/
def registryC9 : List (String × Position) := [("p1", positionC9)]

/-- A signal with a fixed entry at 100 and stop-loss 98. -/
def signalC1 : ParsedSignal :=
  { pair := "BTC/USDT", direction := Direction.LONG, entryZone := some 100,
    stopLoss := 98, takeProfits := [⟨1, 102⟩], confidence := 90 }

/-- An exchange environment where every call succeeds except the
stop-loss endpoint, which rejects every attempt with code 10001. -/
def envC1 : Env :=
  { priceResp := Except.error (BErr.transport 0),
    levResp := Except.ok ⟨0, "OK", ()⟩,
    orderResp := Except.ok ⟨0, "OK", "order-1"⟩,
    posResp := Except.ok ⟨0, "OK", [⟨"BTCUSDT", 5⟩]⟩,
    slResps := fun _ => Except.ok ⟨10001, "params error", ()⟩,
    tpResp := Except.ok ⟨0, "OK", "tp-1"⟩,
    rbPosResp := Except.ok ⟨0, "OK", [⟨"BTCUSDT", 5⟩]⟩,
    rbOrderResp := Except.ok ⟨0, "OK", "close-1"⟩ }

/-- A signal whose entry price equals its stop-loss price
(`riskPerUnit = 0`). -/
def signalEqSL : ParsedSignal :=
  { pair := "BTC/USDT", direction := Direction.LONG, entryZone := some 100,
    stopLoss := 100, takeProfits := [⟨1, 102⟩], confidence := 90 }

/-- A valid LONG signal (stop-loss 99 strictly below entry 100). -/
def signalTiny : ParsedSignal :=
  { pair := "BTC/USDT", direction := Direction.LONG, entryZone := some 100,
    stopLoss := 99, takeProfits := [⟨1, 102⟩], confidence := 90 }

/-- Three queued operations, the middle one failing. -/
def opsW : List (QueuedOp ℕ ℕ) := [⟨Except.ok 1, 5⟩, ⟨Except.error 7, 300⟩, ⟨Except.ok 2, 0⟩]

/-- An idle dispatcher holding `opsW`. -/
def stW : DispatcherState ℕ ℕ :=
  { requestQueue := opsW, isProcessingQueue := false, lastRequestTime := 0 }

/-- The same dispatcher while a drain is already active. -/
def stBusyW : DispatcherState ℕ ℕ :=
  { requestQueue := opsW, isProcessingQueue := true, lastRequestTime := 0 }

/-! ## Helper lemmas -/

theorem adjustStopLoss_side (setOk : Bool) (position : Position) (tpLevel : Int) :
    (adjustStopLoss setOk position tpLevel).side = position.side := by
  simp only [adjustStopLoss]
  split <;> split <;> rfl

theorem markFilled_side (position : Position) (i : ℕ) :
    (markFilled position i).side = position.side := by
  unfold markFilled
  split <;> rfl

theorem markFilled_stopLoss (position : Position) (i : ℕ) :
    (markFilled position i).stopLoss = position.stopLoss := by
  unfold markFilled
  split <;> rfl

theorem adjustStopLoss_stopLoss_long (setOk : Bool) (position : Position) (tpLevel : Int)
    (h : position.side = Direction.LONG) :
    position.stopLoss ≤ (adjustStopLoss setOk position tpLevel).stopLoss := by
  simp only [adjustStopLoss, h, eq_self_iff_true, if_true]
  split
  next hc => exact le_of_lt hc.1
  next => exact le_refl _

theorem adjustStopLoss_stopLoss_short (setOk : Bool) (position : Position) (tpLevel : Int)
    (h : position.side = Direction.SHORT) :
    (adjustStopLoss setOk position tpLevel).stopLoss ≤ position.stopLoss := by
  simp only [adjustStopLoss, h,
    eq_false (by decide : ¬ (Direction.SHORT = Direction.LONG)), if_false]
  split
  next hc => exact le_of_lt hc.1
  next => exact le_refl _

theorem checkTakeProfitHitsAux_side (setOk : Int → Bool) (oldPrice newPrice : ℚ) :
    ∀ (fuel i : ℕ) (position : Position),
      (checkTakeProfitHitsAux setOk oldPrice newPrice fuel i position).side = position.side := by
  intro fuel
  induction fuel with
  | zero => intro i position; rfl
  | succ n ih =>
    intro i position
    rw [checkTakeProfitHitsAux]
    cases hg : position.takeProfits.get? i with
    | none => rfl
    | some tp =>
      by_cases hf : tp.filled
      · simp only [hf, if_pos]
        exact ih (i + 1) position
      · simp only [hf]
        by_cases hh : checkPriceHitLevel position.side oldPrice newPrice tp.price
        · simp only [hh, if_true, if_false, Bool.false_eq_true]
          rw [ih]
          rw [adjustStopLoss_side, markFilled_side]
        · simp only [hh, if_false, Bool.false_eq_true]
          exact ih (i + 1) position

theorem checkTakeProfitHitsAux_stopLoss_long (setOk : Int → Bool) (oldPrice newPrice : ℚ) :
    ∀ (fuel i : ℕ) (position : Position), position.side = Direction.LONG →
      position.stopLoss ≤
        (checkTakeProfitHitsAux setOk oldPrice newPrice fuel i position).stopLoss := by
  intro fuel
  induction fuel with
  | zero => intro i position _; exact le_refl _
  | succ n ih =>
    intro i position h
    rw [checkTakeProfitHitsAux]
    cases hg : position.takeProfits.get? i with
    | none => exact le_refl _
    | some tp =>
      by_cases hf : tp.filled
      · simp only [hf, if_pos]
        exact ih (i + 1) position h
      · simp only [hf]
        by_cases hh : checkPriceHitLevel position.side oldPrice newPrice tp.price
        · simp only [hh, if_true, if_false, Bool.false_eq_true]
          refine le_trans ?_ (ih (i + 1) _ ?_)
          · calc position.stopLoss = (markFilled position i).stopLoss :=
                  (markFilled_stopLoss position i).symm
              _ ≤ _ := adjustStopLoss_stopLoss_long _ _ _ (by rw [markFilled_side, h])
          · rw [adjustStopLoss_side, markFilled_side, h]
        · simp only [hh, if_false, Bool.false_eq_true]
          exact ih (i + 1) position h

theorem checkTakeProfitHitsAux_stopLoss_short (setOk : Int → Bool) (oldPrice newPrice : ℚ) :
    ∀ (fuel i : ℕ) (position : Position), position.side = Direction.SHORT →
      (checkTakeProfitHitsAux setOk oldPrice newPrice fuel i position).stopLoss ≤
        position.stopLoss := by
  intro fuel
  induction fuel with
  | zero => intro i position _; exact le_refl _
  | succ n ih =>
    intro i position h
    rw [checkTakeProfitHitsAux]
    cases hg : position.takeProfits.get? i with
    | none => exact le_refl _
    | some tp =>
      by_cases hf : tp.filled
      · simp only [hf, if_pos]
        exact ih (i + 1) position h
      · simp only [hf]
        by_cases hh : checkPriceHitLevel position.side oldPrice newPrice tp.price
        · simp only [hh, if_true, if_false, Bool.false_eq_true]
          refine le_trans (ih (i + 1) _ ?_) ?_
          · rw [adjustStopLoss_side, markFilled_side, h]
          · calc (adjustStopLoss (setOk tp.level) (markFilled position i) tp.level).stopLoss
                ≤ (markFilled position i).stopLoss :=
                  adjustStopLoss_stopLoss_short _ _ _ (by rw [markFilled_side, h])
              _ = position.stopLoss := markFilled_stopLoss position i
        · simp only [hh, if_false, Bool.false_eq_true]
          exact ih (i + 1) position h

theorem updatePosition_side (fetch : PollFetch) (setOk : Int → Bool) (position : Position) :
    (updatePosition fetch setOk position).side = position.side := by
  cases fetch with
  | failed => rfl
  | absent => rfl
  | live markPrice unrealisedPnl =>
    simp only [updatePosition, checkTakeProfitHits]
    rw [checkTakeProfitHitsAux_side]

theorem updatePosition_stopLoss_long (fetch : PollFetch) (setOk : Int → Bool)
    (position : Position) (h : position.side = Direction.LONG) :
    position.stopLoss ≤ (updatePosition fetch setOk position).stopLoss := by
  cases fetch with
  | failed => exact le_refl _
  | absent => exact le_refl _
  | live markPrice unrealisedPnl =>
    simp only [updatePosition, checkTakeProfitHits]
    exact checkTakeProfitHitsAux_stopLoss_long _ _ _ _ _ _ h

theorem updatePosition_stopLoss_short (fetch : PollFetch) (setOk : Int → Bool)
    (position : Position) (h : position.side = Direction.SHORT) :
    (updatePosition fetch setOk position).stopLoss ≤ position.stopLoss := by
  cases fetch with
  | failed => exact le_refl _
  | absent => exact le_refl _
  | live markPrice unrealisedPnl =>
    simp only [updatePosition, checkTakeProfitHits]
    exact checkTakeProfitHitsAux_stopLoss_short _ _ _ _ _ _ h

theorem runPolls_stopLoss_long :
    ∀ (events : List (PollFetch × (Int → Bool))) (position : Position),
      position.side = Direction.LONG →
      position.stopLoss ≤ (runPolls events position).stopLoss := by
  intro events
  induction events with
  | nil => intro position _; exact le_refl _
  | cons ev rest ih =>
    intro position h
    simp only [runPolls, List.foldl_cons]
    refine le_trans (updatePosition_stopLoss_long ev.1 ev.2 position h) (ih _ ?_)
    rw [updatePosition_side, h]

theorem runPolls_stopLoss_short :
    ∀ (events : List (PollFetch × (Int → Bool))) (position : Position),
      position.side = Direction.SHORT →
      (runPolls events position).stopLoss ≤ position.stopLoss := by
  intro events
  induction events with
  | nil => intro position _; exact le_refl _
  | cons ev rest ih =>
    intro position h
    simp only [runPolls, List.foldl_cons]
    refine le_trans (ih _ ?_) (updatePosition_stopLoss_short ev.1 ev.2 position h)
    rw [updatePosition_side, h]

/-! ## Claims -/

/-- C2: across any sequence of poll updates, the stored stop-loss of a
LONG position never decreases and that of a SHORT position never
increases; and `adjustStopLoss` changes the stored stop-loss only to the
computed new stop-loss, and only when that is strictly more favorable
(strictly higher for LONG, strictly lower for SHORT) than the current
one. -/
theorem stopLoss_trailing_monotonic :
    (∀ (events : List (PollFetch × (Int → Bool))) (position : Position),
        position.side = Direction.LONG →
        position.stopLoss ≤ (runPolls events position).stopLoss) ∧
    (∀ (events : List (PollFetch × (Int → Bool))) (position : Position),
        position.side = Direction.SHORT →
        (runPolls events position).stopLoss ≤ position.stopLoss) ∧
    (∀ (setOk : Bool) (position : Position) (tpLevel : Int),
        (adjustStopLoss setOk position tpLevel).stopLoss ≠ position.stopLoss →
        (adjustStopLoss setOk position tpLevel).stopLoss = computeNewStopLoss position tpLevel ∧
        (position.side = Direction.LONG →
          position.stopLoss < computeNewStopLoss position tpLevel) ∧
        (position.side = Direction.SHORT →
          computeNewStopLoss position tpLevel < position.stopLoss)) := by
  refine ⟨runPolls_stopLoss_long, runPolls_stopLoss_short, ?_⟩
  intro setOk position tpLevel hne
  cases hS : position.side with
  | LONG =>
    simp only [adjustStopLoss, hS, eq_self_iff_true, if_true] at hne ⊢
    by_cases hc : position.stopLoss < computeNewStopLoss position tpLevel ∧ setOk = true
    · rw [if_pos hc] at hne ⊢
      exact ⟨rfl, fun _ => hc.1, fun h => absurd h (by decide)⟩
    · rw [if_neg hc] at hne
      exact absurd rfl hne
  | SHORT =>
    simp only [adjustStopLoss, hS,
      eq_false (by decide : ¬ (Direction.SHORT = Direction.LONG)), if_false] at hne ⊢
    by_cases hc : computeNewStopLoss position tpLevel < position.stopLoss ∧ setOk = true
    · rw [if_pos hc] at hne ⊢
      exact ⟨rfl, fun h => absurd h (by decide), fun _ => hc.1⟩
    · rw [if_neg hc] at hne
      exact absurd rfl hne

/-- Witness for C2 at the worked example: a LONG position, a SHORT
position, and one strictly-improving `adjustStopLoss` step. -/
theorem stopLoss_trailing_monotonic_witness :
    examplePosition.stopLoss ≤ (runPolls pollsA examplePosition).stopLoss ∧
    (runPolls pollsA examplePositionShort).stopLoss ≤ examplePositionShort.stopLoss ∧
    ((adjustStopLoss true examplePosition 1).stopLoss = computeNewStopLoss examplePosition 1 ∧
      (examplePosition.side = Direction.LONG →
        examplePosition.stopLoss < computeNewStopLoss examplePosition 1) ∧
      (examplePosition.side = Direction.SHORT →
        computeNewStopLoss examplePosition 1 < examplePosition.stopLoss)) :=
  ⟨stopLoss_trailing_monotonic.1 pollsA examplePosition rfl,
   stopLoss_trailing_monotonic.2.1 pollsA examplePositionShort rfl,
   stopLoss_trailing_monotonic.2.2 true examplePosition 1 (by decide)⟩

/-- C8: a level is hit exactly when the previous price was strictly on
the unfavorable side and the new price is at or beyond it; the stop-loss
target after a level-1 hit is the entry price, after a level-k hit
(k ≥ 2) the price of level k−1; and the worked example: LONG, entry 100,
stop-loss 98, ladder [(1,102),(2,104),(3,106)], prices 100→102→103 fill
level 1 and trail the stop-loss to 100, then 103→104→105 fill level 2
and trail it to 102. -/
theorem takeProfit_crossing_rule_and_example :
    (∀ oldPrice newPrice targetPrice : ℚ,
        checkPriceHitLevel Direction.LONG oldPrice newPrice targetPrice = true ↔
          oldPrice < targetPrice ∧ targetPrice ≤ newPrice) ∧
    (∀ oldPrice newPrice targetPrice : ℚ,
        checkPriceHitLevel Direction.SHORT oldPrice newPrice targetPrice = true ↔
          targetPrice < oldPrice ∧ newPrice ≤ targetPrice) ∧
    (∀ position : Position, computeNewStopLoss position 1 = position.entryPrice) ∧
    (∀ (position : Position) (k : Int) (tp : TakeProfit), 2 ≤ k →
        position.takeProfits.find? (fun t => t.level == k - 1) = some tp →
        computeNewStopLoss position k = tp.price) ∧
    ((runPolls pollsA examplePosition).takeProfits.map TakeProfit.filled =
        [true, false, false] ∧
      (runPolls pollsA examplePosition).stopLoss = 100) ∧
    ((runPolls pollsB (runPolls pollsA examplePosition)).takeProfits.map TakeProfit.filled =
        [true, true, false] ∧
      (runPolls pollsB (runPolls pollsA examplePosition)).stopLoss = 102) := by
  refine ⟨?_, ?_, ?_, ?_, ⟨by decide, by decide⟩, ⟨by decide, by decide⟩⟩
  · intro oldPrice newPrice targetPrice
    simp [checkPriceHitLevel]
  · intro oldPrice newPrice targetPrice
    simp [checkPriceHitLevel]
  · intro position
    simp [computeNewStopLoss]
  · intro position k tp hk hfind
    rw [computeNewStopLoss, if_neg (by omega : ¬ k = 1)]
    by_cases h2 : k = 2
    · subst h2
      rw [if_pos rfl]
      simp only [show (2:Int) - 1 = 1 from rfl] at hfind
      rw [hfind]
    · rw [if_neg h2, hfind]

/-- Witness for C8's hypothesis-bearing conjunct: a level-2 hit on the
worked example targets the level-1 price 102. -/
theorem takeProfit_crossing_rule_and_example_witness :
    computeNewStopLoss examplePosition 2 = (102 : ℚ) :=
  takeProfit_crossing_rule_and_example.2.2.2.1 examplePosition 2 ⟨1, 102, false⟩
    (by decide) (by decide)

theorem lookup_map_update (positionId : String) (newP : Position) :
    ∀ (registry : List (String × Position)) (position : Position),
      registry.lookup positionId = some position →
      (registry.map (fun kv =>
          if kv.1 = positionId then (kv.1, newP) else kv)).lookup positionId = some newP := by
  intro registry
  induction registry with
  | nil => intro position h; simp [List.lookup] at h
  | cons kv rest ih =>
    intro position h
    obtain ⟨k, v⟩ := kv
    by_cases hk : k = positionId
    · subst hk
      have hif : (if (k, v).1 = k then ((k, v).1, newP) else (k, v)) = (k, newP) :=
        if_pos rfl
      simp only [List.map_cons, hif]
      simp [List.lookup]
    · have hbeq : (positionId == k) = false :=
        beq_eq_false_iff_ne.mpr (fun hpk => hk hpk.symm)
      have hif : (if (k, v).1 = positionId then ((k, v).1, newP) else (k, v)) = (k, v) :=
        if_neg hk
      simp only [List.lookup, hbeq] at h
      simp only [List.map_cons]
      rw [hif]
      simp only [List.lookup, hbeq]
      exact ih position h

/-- C9 fails on the code: for an ACTIVE position whose flattening market
order is rejected by the exchange, `closePosition` returns `false`
although the position existed in the registry with status ACTIVE. -/
theorem closePosition_order_failure_counterexample :
    registryC9.lookup "p1" = some positionC9 ∧
    positionC9.status = TradeStatus.ACTIVE ∧
    (closePosition registryC9 "p1" false).1 = false := by decide

/-- C9 (amended): `closePosition` returns `true` exactly when the
position existed in the registry with status ACTIVE and the flattening
market order succeeded; for an ACTIVE position it cancels the stop-loss
orders and submits one opposite-side market order whose quantity is the
tracked size floored to a whole unit, marking the position COMPLETED on
success and leaving the registry unchanged (and returning `false`) when
the order fails; missing or non-ACTIVE positions produce `false` with no
exchange action. -/
theorem closePosition_spec :
    ∀ (registry : List (String × Position)) (positionId : String) (orderOk : Bool),
      ((closePosition registry positionId orderOk).1 = true ↔
        orderOk = true ∧ ∃ position, registry.lookup positionId = some position ∧
          position.status = TradeStatus.ACTIVE) ∧
      (∀ position, registry.lookup positionId = some position →
        position.status = TradeStatus.ACTIVE →
        (closePosition registry positionId orderOk).2.2 =
          [MgrAction.cancelStopLossOrders position.symbol,
            MgrAction.marketOrder position.symbol
              (if position.side = Direction.LONG then Side.Sell else Side.Buy)
              (jsFloor (JSNum.fin position.size))] ∧
        (orderOk = true →
          (closePosition registry positionId orderOk).2.1.lookup positionId =
            some { position with status := TradeStatus.COMPLETED }) ∧
        (orderOk = false → (closePosition registry positionId orderOk).2.1 = registry)) ∧
      (∀ position, registry.lookup positionId = some position →
        position.status ≠ TradeStatus.ACTIVE →
        closePosition registry positionId orderOk = (false, registry, [])) ∧
      (registry.lookup positionId = none →
        closePosition registry positionId orderOk = (false, registry, [])) := by
  intro registry positionId orderOk
  refine ⟨?_, ?_, ?_, ?_⟩
  · cases hl : registry.lookup positionId with
    | none => simp [closePosition, hl]
    | some p =>
      by_cases hst : p.status = TradeStatus.ACTIVE
      · cases orderOk with
        | false => simp [closePosition, hl, hst]
        | true =>
          simp only [closePosition, hl, hst]
          simp only [ne_eq, not_true_eq_false, if_false, if_true, true_iff]
          exact ⟨trivial, p, rfl, hst⟩
      · simp [closePosition, hl, hst]
  · intro position hl hst
    simp only [closePosition, hl, hst, ne_eq, not_true_eq_false, if_false]
    cases orderOk with
    | false =>
      refine ⟨rfl, by simp, fun _ => rfl⟩
    | true =>
      refine ⟨rfl, fun _ => ?_, by simp⟩
      exact lookup_map_update positionId _ registry position hl
  · intro position hl hst
    simp [closePosition, hl, hst]
  · intro hl
    simp [closePosition, hl]

/-- Witness for C9 at the one-position registry: with a successful order
the close reports `true` and the record is COMPLETED. -/
theorem closePosition_spec_witness :
    ((closePosition registryC9 "p1" true).1 = true ↔
      true = true ∧ ∃ position, registryC9.lookup "p1" = some position ∧
        position.status = TradeStatus.ACTIVE) ∧
    (closePosition registryC9 "p1" true).2.1.lookup "p1" =
      some { positionC9 with status := TradeStatus.COMPLETED } :=
  ⟨(closePosition_spec registryC9 "p1" true).1,
   ((closePosition_spec registryC9 "p1" true).2.1 positionC9 (by decide)
      (by decide)).2.1 rfl⟩

/-- C10: `setTakeProfits` issues exactly one reduce-only limit order,
priced at the last ladder entry and sized at the floored position size,
whatever the other ladder levels are; an empty ladder issues no order and
succeeds. -/
theorem setTakeProfits_highest_level_only :
    ∀ (resp : CallResp String) (symbol : String) (side : Direction)
      (takeProfits : List TakeProfitLevel) (positionSize : JSNum),
      (takeProfits = [] →
        setTakeProfits resp symbol side takeProfits positionSize = (Except.ok (), [])) ∧
      (∀ highestTP, takeProfits.getLast? = some highestTP →
        (setTakeProfits resp symbol side takeProfits positionSize).2 =
          [{ symbol := symbol,
             side := if side = Direction.LONG then Side.Sell else Side.Buy,
             isLimit := true, qty := jsFloor positionSize,
             price := some highestTP.price, reduceOnly := true }]) := by
  intro resp symbol side takeProfits positionSize
  constructor
  · intro h
    subst h
    rfl
  · intro highestTP hlast
    simp only [setTakeProfits, hlast]

/-- Witness for C10: the empty ladder and a two-level ladder whose last
entry is (2,104). -/
theorem setTakeProfits_highest_level_only_witness :
    setTakeProfits (Except.ok ⟨0, "OK", "tp-1"⟩) "BTCUSDT" Direction.LONG []
      (JSNum.fin 5) = (Except.ok (), []) ∧
    (setTakeProfits (Except.ok ⟨0, "OK", "tp-1"⟩) "BTCUSDT" Direction.LONG
        [⟨1, 102⟩, ⟨2, 104⟩] (JSNum.fin 5)).2 =
      [{ symbol := "BTCUSDT", side := Side.Sell, isLimit := true,
         qty := jsFloor (JSNum.fin 5), price := some (⟨2, 104⟩ : TakeProfitLevel).price,
         reduceOnly := true }] :=
  ⟨(setTakeProfits_highest_level_only (Except.ok ⟨0, "OK", "tp-1"⟩) "BTCUSDT"
      Direction.LONG [] (JSNum.fin 5)).1 rfl,
   (setTakeProfits_highest_level_only (Except.ok ⟨0, "OK", "tp-1"⟩) "BTCUSDT"
      Direction.LONG [⟨1, 102⟩, ⟨2, 104⟩] (JSNum.fin 5)).2 ⟨2, 104⟩ rfl⟩

theorem drainQueue_map_snd {ε α : Type} (minInterval : ℕ) :
    ∀ (ops : List (QueuedOp ε α)) (now lastRequestTime : ℕ),
      (drainQueue minInterval now lastRequestTime ops).1.map Prod.snd =
        ops.map QueuedOp.result := by
  intro ops
  induction ops with
  | nil => intro now lastRequestTime; rfl
  | cons op rest ih =>
    intro now lastRequestTime
    simp only [drainQueue, List.map_cons]
    rw [ih]

theorem drainQueue_head_start {ε α : Type} (minInterval : ℕ) :
    ∀ (ops : List (QueuedOp ε α)) (now lastRequestTime : ℕ) (y : ℕ × Except ε α),
      y ∈ (drainQueue minInterval now lastRequestTime ops).1.head? →
      lastRequestTime + minInterval ≤ y.1 := by
  intro ops now lastRequestTime y hy
  cases ops with
  | nil => simp [drainQueue] at hy
  | cons op rest =>
    simp only [drainQueue, List.head?_cons, Option.mem_def, Option.some.injEq] at hy
    subst hy
    by_cases h : now < lastRequestTime + minInterval
    · simp [h]
    · simp [h]; omega

theorem drainQueue_chain {ε α : Type} (minInterval : ℕ) :
    ∀ (ops : List (QueuedOp ε α)) (now lastRequestTime : ℕ),
      List.Chain' (fun a b => a.1 + minInterval ≤ b.1)
        (drainQueue minInterval now lastRequestTime ops).1 := by
  intro ops
  induction ops with
  | nil => intro now lastRequestTime; exact List.chain'_nil
  | cons op rest ih =>
    intro now lastRequestTime
    simp only [drainQueue]
    apply List.chain'_cons'.2
    constructor
    · intro y hy
      exact drainQueue_head_start minInterval rest _ _ y hy
    · exact ih _ _

/-- C5: the drain loop delivers to each enqueued operation's caller
exactly that operation's own result (value or failure), in queue order,
so one operation's failure never prevents delivery of the results of the
other queued operations. -/
theorem withRateLimit_result_delivery :
    (∀ (ε α : Type) (minInterval now lastRequestTime : ℕ) (ops : List (QueuedOp ε α)),
        (drainQueue minInterval now lastRequestTime ops).1.map Prod.snd =
          ops.map QueuedOp.result) ∧
    (∀ (ε α : Type) (now : ℕ) (st : DispatcherState ε α),
        st.isProcessingQueue = false →
        (processRequestQueue now st).2.map Prod.snd =
          st.requestQueue.map QueuedOp.result) := by
  constructor
  · intro ε α minInterval now lastRequestTime ops
    exact drainQueue_map_snd minInterval ops now lastRequestTime
  · intro ε α now st h
    by_cases hq : st.requestQueue.isEmpty
    · rw [List.isEmpty_iff] at hq
      simp [processRequestQueue, h, hq]
    · simp only [processRequestQueue, h, hq, Bool.false_or, if_false, Bool.false_eq_true]
      exact drainQueue_map_snd MIN_REQUEST_INTERVAL st.requestQueue now st.lastRequestTime

/-- Witness for C5: three queued operations, the middle one failing; all
three results are delivered in order. -/
theorem withRateLimit_result_delivery_witness :
    (processRequestQueue 0 stW).2.map Prod.snd = stW.requestQueue.map QueuedOp.result :=
  withRateLimit_result_delivery.2 ℕ ℕ 0 stW rfl

/-- C6: the minimum dispatch interval is 100 ms; a call of
`processRequestQueue` while a drain is active is a no-op (no second drain
starts); consecutive dispatch start times differ by at least the minimum
interval; and dispatch order is FIFO arrival order, each dispatch carrying
its own operation's result. -/
theorem processRequestQueue_single_drain :
    MIN_REQUEST_INTERVAL = 100 ∧
    (∀ (ε α : Type) (now : ℕ) (st : DispatcherState ε α),
        st.isProcessingQueue = true → processRequestQueue now st = (st, [])) ∧
    (∀ (ε α : Type) (now : ℕ) (st : DispatcherState ε α),
        List.Chain' (fun a b => a.1 + MIN_REQUEST_INTERVAL ≤ b.1)
          (processRequestQueue now st).2) ∧
    (∀ (ε α : Type) (minInterval now lastRequestTime : ℕ) (ops : List (QueuedOp ε α)),
        (drainQueue minInterval now lastRequestTime ops).1.map Prod.snd =
          ops.map QueuedOp.result) := by
  refine ⟨rfl, ?_, ?_, ?_⟩
  · intro ε α now st h
    simp [processRequestQueue, h]
  · intro ε α now st
    by_cases h : st.isProcessingQueue || st.requestQueue.isEmpty
    · simp [processRequestQueue, h]
    · simp only [processRequestQueue, h, if_false, Bool.false_eq_true]
      exact drainQueue_chain MIN_REQUEST_INTERVAL st.requestQueue now st.lastRequestTime
  · intro ε α minInterval now lastRequestTime ops
    exact drainQueue_map_snd minInterval ops now lastRequestTime

/-- Witness for C6: an enqueue arriving while the drain flag is set
dispatches nothing and leaves the state untouched. -/
theorem processRequestQueue_single_drain_witness :
    processRequestQueue 0 stBusyW = (stBusyW, []) :=
  processRequestQueue_single_drain.2.1 ℕ ℕ 0 stBusyW rfl

/-- C4: `handleResponse` succeeds with the payload exactly on code 0 and
the two idempotent "already set" codes 110043 and 34040, fails on every
other code; and a leverage-set call answered with the "not modified" code
takes the same `executeTrade` control-flow path as one answered with
code 0. -/
theorem handleResponse_idempotent_success :
    (∀ (α : Type) (data : Envelope α),
        data.retCode = 0 ∨ data.retCode = 110043 ∨ data.retCode = 34040 →
        handleResponse data = Except.ok data.result) ∧
    (∀ (α : Type) (data : Envelope α),
        data.retCode ≠ 0 → data.retCode ≠ 110043 → data.retCode ≠ 34040 →
        handleResponse data = Except.error (BErr.apiError data.retCode)) ∧
    (∀ (env : Env) (signal : ParsedSignal) (portfolioValue portfolioPercentage : ℚ)
        (msg1 msg2 : String),
        executeTrade { env with levResp := Except.ok ⟨110043, msg1, ()⟩ }
            signal portfolioValue portfolioPercentage =
          executeTrade { env with levResp := Except.ok ⟨0, msg2, ()⟩ }
            signal portfolioValue portfolioPercentage) := by
  refine ⟨?_, ?_, ?_⟩
  · intro α data h
    unfold handleResponse
    rcases h with h | h | h <;> simp [h]
  · intro α data h0 h1 h2
    unfold handleResponse
    simp [h0, h1, h2]
  · intro env signal portfolioValue portfolioPercentage msg1 msg2
    have hlev : ∀ (m : String) (symbol : String) (lev : JSNum),
        setLeverage (Except.ok ⟨110043, m, ()⟩) symbol lev = Except.ok () :=
      fun _ _ _ => rfl
    have hlev0 : ∀ (m : String) (symbol : String) (lev : JSNum),
        setLeverage (Except.ok ⟨0, m, ()⟩) symbol lev = Except.ok () :=
      fun _ _ _ => rfl
    simp only [executeTrade, executeTradeInner, resolveEntryPrice, hlev, hlev0,
      setStopLossWithRetries, emergencyClosePosition]

/-- Witness for C4: code 34040 succeeds, code 10001 fails. -/
theorem handleResponse_idempotent_success_witness :
    handleResponse ({ retCode := 34040, retMsg := "not modified", result := 7 } : Envelope ℕ) =
      Except.ok 7 ∧
    handleResponse ({ retCode := 10001, retMsg := "params error", result := 7 } : Envelope ℕ) =
      Except.error (BErr.apiError 10001) :=
  ⟨handleResponse_idempotent_success.1 ℕ ⟨34040, "not modified", 7⟩ (Or.inr (Or.inr rfl)),
   handleResponse_idempotent_success.2.1 ℕ ⟨10001, "params error", 7⟩
     (by decide) (by decide) (by decide)⟩

/-- C1: when the market order has been placed and all three stop-loss
attempts fail, exactly one rollback is issued — the trace holds exactly
two order requests, the entry order and a single opposite-side flattening
market order for the re-queried live position size — and the error
returned to the caller is the stop-loss failure (wrapping the last
attempt's error), not any rollback error. -/
theorem executeTrade_stopLossFailed_single_rollback
    (env : Env) (signal : ParsedSignal) (portfolioValue portfolioPercentage : ℚ)
    (currentPrice : ℚ) (orderId : String) (position rbPosition : PosEntry)
    (e1 e2 e3 : BErr)
    (hprice : resolveEntryPrice env signal = Except.ok currentPrice)
    (hlev : setLeverage env.levResp (convertSymbolToBybit signal.pair)
        (calculatePositionSize signal portfolioValue portfolioPercentage currentPrice).leverage =
        Except.ok ())
    (hord : createOrderCall env.orderResp = Except.ok orderId)
    (hpos : getPosition env.posResp (convertSymbolToBybit signal.pair) =
        Except.ok (some position))
    (hposz : ¬ position.size = 0)
    (hsl1 : setStopLoss (env.slResps 1) (convertSymbolToBybit signal.pair)
        signal.direction signal.stopLoss = Except.error e1)
    (hsl2 : setStopLoss (env.slResps 2) (convertSymbolToBybit signal.pair)
        signal.direction signal.stopLoss = Except.error e2)
    (hsl3 : setStopLoss (env.slResps 3) (convertSymbolToBybit signal.pair)
        signal.direction signal.stopLoss = Except.error e3)
    (hrb : getPosition env.rbPosResp (convertSymbolToBybit signal.pair) =
        Except.ok (some rbPosition))
    (hrbz : ¬ rbPosition.size = 0) :
    executeTrade env signal portfolioValue portfolioPercentage =
      (Except.error (BErr.slFailed e3),
       [{ symbol := convertSymbolToBybit signal.pair,
          side := if signal.direction = Direction.LONG then Side.Buy else Side.Sell,
          isLimit := false,
          qty := jsFloor
            (calculatePositionSize signal portfolioValue portfolioPercentage currentPrice).size,
          price := none, reduceOnly := false },
        { symbol := convertSymbolToBybit signal.pair,
          side := if signal.direction = Direction.LONG then Side.Sell else Side.Buy,
          isLimit := false, qty := jsFloor (JSNum.fin rbPosition.size),
          price := none, reduceOnly := false }]) := by
  simp only [executeTrade, executeTradeInner, placeMarketOrder, setStopLossWithRetries,
    emergencyClosePosition, hprice, hlev, hord, hpos, hsl1, hsl2, hsl3, hrb, hposz,
    if_false, if_true, hrbz]
  cases hro : createOrderCall env.rbOrderResp with
  | ok a => simp
  | error e => simp

theorem jsSub_fin_fin (a b : ℚ) : jsSub (fin a) (fin b) = fin (a - b) := rfl

theorem jsMul_fin_fin (a b : ℚ) : jsMul (fin a) (fin b) = fin (a * b) := rfl

theorem jsDiv_fin_fin (a b : ℚ) (h : b ≠ 0) : jsDiv (fin a) (fin b) = fin (a / b) := by
  simp [jsDiv, h]

theorem jsDiv_fin_zero_pos (a : ℚ) (h : 0 < a) : jsDiv (fin a) (fin 0) = posInf := by
  simp [jsDiv, h]

theorem jsAbs_fin_of_nonneg (a : ℚ) (h : 0 ≤ a) : jsAbs (fin a) = fin a := by
  simp [jsAbs, not_lt.mpr h]

theorem jsMin_fin_fin (a b : ℚ) : jsMin (fin a) (fin b) = fin (if b < a then b else a) := by
  by_cases h : b < a <;> simp [jsMin, h]

theorem jsMax_fin_fin (a b : ℚ) : jsMax (fin a) (fin b) = fin (if a < b then b else a) := by
  by_cases h : a < b <;> simp [jsMax, h]

theorem jsMin_posInf_fin (b : ℚ) : jsMin posInf (fin b) = fin b := rfl

theorem jsMin_fin_posInf (a : ℚ) : jsMin (fin a) posInf = fin a := rfl

theorem jsMax_fin_posInf (a : ℚ) : jsMax (fin a) posInf = posInf := rfl

theorem jsMul_posInf_fin_pos (b : ℚ) (h : 0 < b) : jsMul posInf (fin b) = posInf := by
  simp [jsMul, h]

theorem jsDiv_posInf_fin_nonneg (b : ℚ) (h : ¬ b < 0) : jsDiv posInf (fin b) = posInf := by
  simp [jsDiv, h]

theorem jsFloor_fin (a : ℚ) : jsFloor (fin a) = fin (⌊a⌋ : ℚ) := rfl

theorem jsToFixed6_fin (a : ℚ) : jsToFixed6 (fin a) = fin (roundTo6 a) := rfl

theorem floor_q_twenty : ((⌊(20:ℚ)⌋ : ℚ)) = 20 := by norm_num

theorem roundTo6_nonneg (q : ℚ) (h : 0 ≤ q) : 0 ≤ roundTo6 q := by
  unfold roundTo6
  apply div_nonneg _ (by norm_num)
  have h1 : (0:ℤ) ≤ ⌊q * 1000000 + 1 / 2⌋ :=
    Int.floor_nonneg.mpr (add_nonneg (mul_nonneg h (by norm_num)) (by norm_num))
  exact_mod_cast h1

theorem roundTo6_pos (q : ℚ) (h : 1 / 2000000 ≤ q) : 0 < roundTo6 q := by
  unfold roundTo6
  apply div_pos _ (by norm_num)
  have h1 : (1:ℚ) ≤ q * 1000000 + 1 / 2 := by linarith
  have h2 : (1:ℤ) ≤ ⌊q * 1000000 + 1 / 2⌋ := Int.le_floor.mpr (by exact_mod_cast h1)
  have h3 : (0:ℤ) < ⌊q * 1000000 + 1 / 2⌋ := lt_of_lt_of_le zero_lt_one h2
  exact_mod_cast h3

theorem leverage_clamp (PV cap : ℚ) (hPV : 0 < PV) (hcap : 0 < cap) :
    jsMin (fin 20) (jsMax (fin 1)
      (jsDiv (fin PV) (jsMin (jsDiv (fin PV) (fin 20)) (fin cap)))) = fin 20 := by
  rw [jsDiv_fin_fin _ _ (by norm_num : (20:ℚ) ≠ 0), jsMin_fin_fin]
  have hm0 : 0 < (if cap < PV / 20 then cap else PV / 20) := by
    split
    · exact hcap
    · positivity
  have hmle : (if cap < PV / 20 then cap else PV / 20) ≤ PV / 20 := by
    split
    · linarith
    · exact le_refl _
  have hratio : (20:ℚ) ≤ PV / (if cap < PV / 20 then cap else PV / 20) := by
    rw [le_div_iff₀ hm0]
    linarith
  rw [jsDiv_fin_fin _ _ hm0.ne', jsMax_fin_fin,
    if_pos (by linarith : (1:ℚ) < PV / (if cap < PV / 20 then cap else PV / 20)),
    jsMin_fin_fin, if_neg (not_lt.mpr hratio)]

theorem size_margin (PV cap e : ℚ) (he : e ≠ 0) :
    jsDiv (jsMul (jsMin (jsDiv (fin PV) (fin 20)) (fin cap)) (fin 20)) (fin e) =
      fin ((if cap < PV / 20 then cap else PV / 20) * 20 / e) := by
  rw [jsDiv_fin_fin _ _ (by norm_num : (20:ℚ) ≠ 0), jsMin_fin_fin, jsMul_fin_fin,
    jsDiv_fin_fin _ _ he]

theorem unroundedSize_pos (signal : ParsedSignal) (pv pct cp : ℚ)
    (hsl : 0 < signal.stopLoss)
    (hentry : signal.stopLoss < entryPriceOf signal cp)
    (hpv : 0 < pv) (hpct : 0 < pct) :
    0 < unroundedSize signal pv pct cp := by
  have hd : (0:ℚ) < entryPriceOf signal cp - signal.stopLoss := sub_pos.mpr hentry
  have he : (0:ℚ) < entryPriceOf signal cp := lt_trans hsl hentry
  have hPV : 0 < pv * pct / 100 / (entryPriceOf signal cp - signal.stopLoss) *
      entryPriceOf signal cp :=
    mul_pos (div_pos (div_pos (mul_pos hpv hpct) (by norm_num)) hd) he
  simp only [unroundedSize]
  apply div_pos _ he
  apply mul_pos _ (by norm_num : (0:ℚ) < 20)
  split
  · exact mul_pos hpv (by norm_num)
  · exact div_pos hPV (by norm_num)

/-- On any input with a strictly positive stop-loss distance (and positive
portfolio, percentage and entry), `calculatePositionSize` stays entirely
in finite arithmetic: the leverage clamps to exactly 20 and the size is
the six-decimal rounding of `unroundedSize`. -/
theorem calculatePositionSize_pos_distance (signal : ParsedSignal) (pv pct cp : ℚ)
    (hsl : 0 < signal.stopLoss)
    (hentry : signal.stopLoss < entryPriceOf signal cp)
    (hpv : 0 < pv) (hpct : 0 < pct) :
    calculatePositionSize signal pv pct cp =
      { size := fin (roundTo6 (unroundedSize signal pv pct cp)),
        leverage := fin 20 } := by
  have hd : (0:ℚ) < entryPriceOf signal cp - signal.stopLoss := sub_pos.mpr hentry
  have he : (0:ℚ) < entryPriceOf signal cp := lt_trans hsl hentry
  have hPV : 0 < pv * pct / 100 / (entryPriceOf signal cp - signal.stopLoss) *
      entryPriceOf signal cp :=
    mul_pos (div_pos (div_pos (mul_pos hpv hpct) (by norm_num)) hd) he
  have hcap : (0:ℚ) < pv * (8 / 10) := mul_pos hpv (by norm_num)
  simp only [calculatePositionSize, unroundedSize, jsMul_fin_fin, jsSub_fin_fin]
  rw [jsAbs_fin_of_nonneg _ hd.le]
  rw [jsDiv_fin_fin _ _ (by norm_num : (100:ℚ) ≠ 0)]
  rw [jsDiv_fin_fin _ _ hd.ne']
  simp only [jsMul_fin_fin]
  rw [leverage_clamp _ _ hPV hcap]
  rw [size_margin _ _ _ he.ne']
  rw [jsFloor_fin, floor_q_twenty, jsToFixed6_fin]

/-- C3 fails on the code: `calculatePositionSize` contains no
`riskPerUnit == 0` guard and no `InvalidRiskDistance` error — at entry =
stop-loss = 100 it performs the division and returns a normal result
(size 160, leverage 20, the margin cap keeping the values finite), and
with risk amount 0 as well the division is performed, making both
returned numbers NaN (refuting "never infinity/NaN"). -/
theorem calculatePositionSize_no_risk_guard_counterexample :
    signalEqSL.stopLoss = 100 ∧ entryPriceOf signalEqSL 0 = 100 ∧
    calculatePositionSize signalEqSL 1000 1 0 = { size := fin 160, leverage := fin 20 } ∧
    calculatePositionSize signalEqSL 1000 0 0 =
      { size := JSNum.nan, leverage := JSNum.nan } := by
  refine ⟨rfl, rfl, ?_, ?_⟩ <;>
    norm_num [calculatePositionSize, entryPriceOf, signalEqSL, jsMul, jsSub, jsDiv, jsAbs,
      jsMin, jsMax, jsFloor, jsToFixed6, roundTo6]

/-- C3 (amended): `calculatePositionSize` has no `riskPerUnit == 0` guard
and cannot fail.  When the entry price equals the stop-loss price it
performs the division (an intermediate JS infinity); with positive risk
amount the margin cap still yields finite outputs: leverage exactly 20
and size `round6(pv · 0.8 · 20 / entry)`.  (When the risk amount is also
zero the outputs are NaN, see the counterexample.) -/
theorem calculatePositionSize_zero_risk_distance (signal : ParsedSignal) (pv pct cp : ℚ)
    (heq : entryPriceOf signal cp = signal.stopLoss)
    (hs : 0 < signal.stopLoss) (hpv : 0 < pv) (hpct : 0 < pct) :
    calculatePositionSize signal pv pct cp =
      { size := fin (roundTo6 (pv * (8 / 10) * 20 / signal.stopLoss)),
        leverage := fin 20 } := by
  have hra : 0 < pv * pct / 100 := by positivity
  have hcap : (0:ℚ) < pv * (8 / 10) := mul_pos hpv (by norm_num)
  simp only [calculatePositionSize, jsMul_fin_fin, jsSub_fin_fin, heq, sub_self]
  rw [jsAbs_fin_of_nonneg _ (le_refl 0)]
  rw [jsDiv_fin_fin _ _ (by norm_num : (100:ℚ) ≠ 0)]
  rw [jsDiv_fin_zero_pos _ hra]
  rw [jsMul_posInf_fin_pos _ hs]
  rw [jsDiv_posInf_fin_nonneg _ (by norm_num : ¬ (20:ℚ) < 0)]
  rw [jsMin_posInf_fin]
  rw [jsDiv_posInf_fin_nonneg _ (not_lt.mpr hcap.le)]
  rw [jsMax_fin_posInf, jsMin_fin_posInf]
  rw [jsMul_fin_fin]
  rw [jsDiv_fin_fin _ _ hs.ne']
  rw [jsFloor_fin, floor_q_twenty, jsToFixed6_fin]

/-- Witness for C3's amended theorem: entry = stop-loss = 100, portfolio
1000, risk 1%. -/
theorem calculatePositionSize_zero_risk_distance_witness :
    calculatePositionSize signalEqSL 1000 1 0 =
      { size := fin (roundTo6 (1000 * (8 / 10) * 20 / signalEqSL.stopLoss)),
        leverage := fin 20 } :=
  calculatePositionSize_zero_risk_distance signalEqSL 1000 1 0 rfl (by decide)
    (by decide) (by decide)

/-- C7 fails on the code: for the valid LONG signal with entry 100 and
stop-loss 99 and the (positive) portfolio value 10⁻⁶ with risk 1%, the
computed size rounds to exactly 0, not a value strictly greater than 0. -/
theorem calculatePositionSize_tiny_portfolio_counterexample :
    signalTiny.direction = Direction.LONG ∧
    0 < signalTiny.stopLoss ∧ signalTiny.stopLoss < entryPriceOf signalTiny 0 ∧
    (0:ℚ) < 1 / 1000000 ∧ (0:ℚ) < 1 ∧
    (calculatePositionSize signalTiny (1 / 1000000) 1 0).size = fin 0 := by
  refine ⟨rfl, by decide, by decide, by norm_num, by norm_num, ?_⟩
  norm_num [calculatePositionSize, entryPriceOf, signalTiny, jsMul, jsSub, jsDiv, jsAbs,
    jsMin, jsMax, jsFloor, jsToFixed6, roundTo6]

/-- C7 (amended): for every valid LONG signal (stop-loss strictly below
the resolved entry, positive portfolio value and risk percentage) the
returned leverage is exactly the integer 20 ∈ [1, 20]; the size is the
six-decimal rounding of the exact pre-rounding size, hence nonnegative,
and strictly positive whenever that exact size is at least 5·10⁻⁷ (tiny
portfolios can round to size 0, see the counterexample). -/
theorem calculatePositionSize_valid_long_bounds (signal : ParsedSignal) (pv pct cp : ℚ)
    (hdir : signal.direction = Direction.LONG)
    (hsl : 0 < signal.stopLoss)
    (hentry : signal.stopLoss < entryPriceOf signal cp)
    (hpv : 0 < pv) (hpct : 0 < pct) :
    (calculatePositionSize signal pv pct cp).leverage = fin 20 ∧
    (calculatePositionSize signal pv pct cp).size =
      fin (roundTo6 (unroundedSize signal pv pct cp)) ∧
    0 ≤ roundTo6 (unroundedSize signal pv pct cp) ∧
    (1 / 2000000 ≤ unroundedSize signal pv pct cp →
      0 < roundTo6 (unroundedSize signal pv pct cp)) := by
  have hchar := calculatePositionSize_pos_distance signal pv pct cp hsl hentry hpv hpct
  have hpos := unroundedSize_pos signal pv pct cp hsl hentry hpv hpct
  exact ⟨by rw [hchar], by rw [hchar], roundTo6_nonneg _ hpos.le, fun h => roundTo6_pos _ h⟩

/-- Witness for C7's amended theorem: entry 100, stop-loss 98, portfolio
1000, risk 1% — leverage 20 and a strictly positive size. -/
theorem calculatePositionSize_valid_long_bounds_witness :
    (calculatePositionSize signalC1 1000 1 0).leverage = fin 20 ∧
    (calculatePositionSize signalC1 1000 1 0).size =
      fin (roundTo6 (unroundedSize signalC1 1000 1 0)) ∧
    0 ≤ roundTo6 (unroundedSize signalC1 1000 1 0) ∧
    0 < roundTo6 (unroundedSize signalC1 1000 1 0) :=
  let h := calculatePositionSize_valid_long_bounds signalC1 1000 1 0 rfl (by decide)
    (by decide) (by decide) (by decide)
  ⟨h.1, h.2.1, h.2.2.1, h.2.2.2 (by norm_num [unroundedSize, entryPriceOf, signalC1])⟩

/-- Witness for C1: a concrete environment in which every call succeeds
except the stop-loss endpoint, which rejects all three attempts with code
10001. -/
theorem executeTrade_stopLossFailed_single_rollback_witness :
    executeTrade envC1 signalC1 1000 1 =
      (Except.error (BErr.slFailed (BErr.apiError 10001)),
       [{ symbol := "BTCUSDT", side := Side.Buy, isLimit := false,
          qty := jsFloor (calculatePositionSize signalC1 1000 1 100).size,
          price := none, reduceOnly := false },
        { symbol := "BTCUSDT", side := Side.Sell, isLimit := false,
          qty := jsFloor (JSNum.fin 5), price := none, reduceOnly := false }]) :=
  executeTrade_stopLossFailed_single_rollback envC1 signalC1 1000 1 100 "order-1"
    ⟨"BTCUSDT", 5⟩ ⟨"BTCUSDT", 5⟩ (BErr.apiError 10001) (BErr.apiError 10001)
    (BErr.apiError 10001) rfl rfl rfl rfl (by decide) rfl rfl rfl rfl (by decide)

end Trb
